import Mathlib

/-!
Model of the zuul client library (`src/lib.rs`): the record model and its
JSON decoding, the paged fetcher (`builds`), the retry wrapper, the
deduplicating build scanner (`builds_stream`), the tail loop
(`builds_tail`) and the root-url normalization helper (`parse_root_url`).

Fallible operations are embedded as `Except`-valued functions; the
stateful generator loops are embedded as step functions on explicit state
records driven by the finite list of responses the backend produces.
-/

/-- Transport-level failure (connection error, bad HTTP status, malformed
top-level body), modelling `reqwest::Error`. -/
structure TransportError where
  msg : String
deriving DecidableEq, Repr

/-- Per-element decode failure, modelling `serde_json::Error`. -/
structure DecodeError where
  msg : String
deriving DecidableEq, Repr

/-- A 32-bit floating value: NaN, an infinity, or a finite value given
exactly as a rational (every finite f32 is a rational). -/
inductive F32 where
  | nan
  | negInf
  | posInf
  | finite (v : ℚ)
deriving DecidableEq, Repr

/-- A JSON numeral as held by `serde_json::Number`: an unsigned integer, a
negative integer, or a floating value.  The floating variant carries the
value the code reads the numeral with; rounding of wide integers to f32
precision when a numeral is consumed as a float is not modelled (it is
irrelevant to every property stated below, whose inputs are exactly
representable or whose outputs agree after saturation). -/
inductive JNum where
  | uint (n : Nat)
  | nint (i : Int)
  | float (v : F32)
deriving DecidableEq, Repr

/-- JSON values, modelling `serde_json::Value`. -/
inductive Json where
  | null
  | bool (b : Bool)
  | num (n : JNum)
  | str (s : String)
  | arr (elems : List Json)
  | obj (members : List (String × Json))

/-- Whether a JSON value is an array. -/
def Json.isArr : Json → Bool
  | .arr _ => true
  | _ => false

/-- A UTC timestamp at second precision, the decoded form of the
`%Y-%m-%dT%H:%M:%S` wire format used by `python_utc_without_trailing_z`. -/
structure PyDateTime where
  year : Nat
  month : Nat
  day : Nat
  hour : Nat
  minute : Nat
  second : Nat
deriving DecidableEq, Repr

/-- A Build artifact (`struct Artifact`). -/
structure Artifact where
  name : String
  url : String
deriving DecidableEq, Repr

/-- A Build result (`struct Build`).  `duration` is the u32 seconds field;
`change` is the optional u64 change number. -/
structure Build where
  uuid : String
  job_name : String
  result : String
  start_time : PyDateTime
  end_time : PyDateTime
  duration : Nat
  voting : Bool
  log_url : Option String
  artifacts : List Artifact
  project : String
  branch : String
  pipeline : String
  change : Option Nat
  patchset : Option String
  change_ref : String
  event_id : String
deriving DecidableEq, Repr

/-- The numeric value of a decimal digit character, if it is one. -/
def digit? (c : Char) : Option Nat :=
  if c.isDigit then some (c.toNat - 48) else none

/-- Two fixed digits as a number. -/
def parse2 (a b : Char) : Option Nat := do
  pure ((← digit? a) * 10 + (← digit? b))

/-- Four fixed digits as a number. -/
def parse4 (a b c d : Char) : Option Nat := do
  pure (((← digit? a) * 10 + (← digit? b)) * 100 + ((← digit? c) * 10 + (← digit? d)))

/-- Parse the `%Y-%m-%dT%H:%M:%S` wire format used by
`python_utc_without_trailing_z::deserialize` (via
`Utc.datetime_from_str`): a fixed-width timestamp with no fractional
seconds and no zone suffix, rejecting trailing input and out-of-range
fields.  Calendar-level day-in-month validation is abstracted to the
range 1..=31. -/
def python_utc_parse (s : String) : Except DecodeError PyDateTime :=
  match s.toList with
  | [y1, y2, y3, y4, '-', o1, o2, '-', d1, d2, 'T', h1, h2, ':', m1, m2, ':', c1, c2] =>
    match parse4 y1 y2 y3 y4, parse2 o1 o2, parse2 d1 d2,
          parse2 h1 h2, parse2 m1 m2, parse2 c1 c2 with
    | some y, some mo, some d, some h, some mi, some se =>
      if 1 ≤ mo ∧ mo ≤ 12 ∧ 1 ≤ d ∧ d ≤ 31 ∧ h ≤ 23 ∧ mi ≤ 59 ∧ se ≤ 59 then
        .ok ⟨y, mo, d, h, mi, se⟩
      else
        .error ⟨"input is out of range"⟩
    | _, _, _, _, _, _ => .error ⟨"input contains invalid characters"⟩
  | _ => .error ⟨"bad timestamp shape"⟩

/-- Decode a JSON string (`String::deserialize`). -/
def decodeString : Json → Except DecodeError String
  | .str s => .ok s
  | _ => .error ⟨"invalid type: expected a string"⟩

/-- Decode a JSON boolean (`bool::deserialize`). -/
def decodeBool : Json → Except DecodeError Bool
  | .bool b => .ok b
  | _ => .error ⟨"invalid type: expected a boolean"⟩

/-- Decode a JSON unsigned integer (`u64::deserialize`): only an unsigned
integral numeral is accepted. -/
def decodeU64 : Json → Except DecodeError Nat
  | .num (.uint n) => .ok n
  | _ => .error ⟨"invalid type: expected u64"⟩

/-- `python_utc_without_trailing_z::deserialize`: a string, parsed with
the fixed timestamp format. -/
def python_utc_deserialize (j : Json) : Except DecodeError PyDateTime := do
  python_utc_parse (← decodeString j)

/-- `u32::MAX`. -/
def U32_MAX : Nat := 4294967295

/-- Rust's saturating float-to-integer cast `v as u32`: NaN and negative
values go to 0, values beyond `u32::MAX` go to `u32::MAX`, finite
in-range values are truncated toward zero. -/
def f32CastU32 : F32 → Nat
  | .nan => 0
  | .negInf => 0
  | .posInf => U32_MAX
  | .finite v => if v ≤ 0 then 0 else min U32_MAX (Rat.floor v).toNat

/-- The f32 value a JSON numeral is read as by `f32::deserialize` (every
`serde_json::Number` converts to a float; this never fails). -/
def jnumToF32 : JNum → F32
  | .uint n => .finite n
  | .nint i => .finite i
  | .float v => v

/-- `rounded_float::deserialize`: read the value as an f32, then cast it
to u32 (`v as u32`). -/
def rounded_float_deserialize : Json → Except DecodeError Nat
  | .num n => .ok (f32CastU32 (jnumToF32 n))
  | _ => .error ⟨"invalid type: expected f32"⟩

/-- `rounded_float::serialize`: emit the duration with `serialize_u32`,
i.e. as a plain unsigned integral numeral. -/
def rounded_float_serialize (n : Nat) : Json :=
  .num (.uint n)

/-- Look up an object member by key (serde's field lookup; unknown
members are simply never looked up, hence ignored). -/
def getField (ms : List (String × Json)) (k : String) : Option Json :=
  (ms.find? (fun m => m.1 = k)).map (fun m => m.2)

/-- A required struct field: missing is a decode error, otherwise the
field decoder runs on the value. -/
def reqField {α : Type} (ms : List (String × Json)) (k : String)
    (f : Json → Except DecodeError α) : Except DecodeError α :=
  match getField ms k with
  | none => .error ⟨"missing field " ++ k⟩
  | some j => f j

/-- An `Option` struct field: a missing member or an explicit `null`
decodes to `none`; otherwise the field decoder runs on the value. -/
def optField {α : Type} (ms : List (String × Json)) (k : String)
    (f : Json → Except DecodeError α) : Except DecodeError (Option α) :=
  match getField ms k with
  | none => .ok none
  | some .null => .ok none
  | some j => (f j).map some

/-- The decode error produced when a build element is not a JSON object. -/
def buildTypeError : DecodeError := ⟨"invalid type: expected build object"⟩

/-- `Artifact::deserialize`: an object with required string members
`name` and `url`; unknown members are ignored. -/
def decodeArtifact : Json → Except DecodeError Artifact
  | .obj ms => do
    let nm ← reqField ms "name" decodeString
    let u ← reqField ms "url" decodeString
    pure ⟨nm, u⟩
  | _ => .error ⟨"invalid type: expected artifact object"⟩

/-- `Vec<Artifact>::deserialize`: a JSON array whose elements all decode;
the first failing element fails the vector (this is inside one build
element, not the page). -/
def decodeArtifacts : Json → Except DecodeError (List Artifact)
  | .arr xs => xs.mapM decodeArtifact
  | _ => .error ⟨"invalid type: expected artifact array"⟩

/-- `Build::deserialize`: a JSON object decoded field by field; `ref` in
the wire form maps to `change_ref`, the timestamp and duration fields go
through their custom modules, `log_url` / `change` / `patchset` are
optional, and unknown members are ignored. -/
def decodeBuild : Json → Except DecodeError Build
  | .obj ms => do
    let uuid ← reqField ms "uuid" decodeString
    let job_name ← reqField ms "job_name" decodeString
    let result ← reqField ms "result" decodeString
    let start_time ← reqField ms "start_time" python_utc_deserialize
    let end_time ← reqField ms "end_time" python_utc_deserialize
    let duration ← reqField ms "duration" rounded_float_deserialize
    let voting ← reqField ms "voting" decodeBool
    let log_url ← optField ms "log_url" decodeString
    let artifacts ← reqField ms "artifacts" decodeArtifacts
    let project ← reqField ms "project" decodeString
    let branch ← reqField ms "branch" decodeString
    let pipeline ← reqField ms "pipeline" decodeString
    let change ← optField ms "change" decodeU64
    let patchset ← optField ms "patchset" decodeString
    let change_ref ← reqField ms "ref" decodeString
    let event_id ← reqField ms "event_id" decodeString
    pure ⟨uuid, job_name, result, start_time, end_time, duration, voting,
          log_url, artifacts, project, branch, pipeline, change, patchset,
          change_ref, event_id⟩
  | _ => .error buildTypeError

/-- The transport error produced when the response body is not a JSON
array (`resp.json::<Vec<Value>>()` fails at the reqwest layer). -/
def jsonBodyError : TransportError := ⟨"error decoding response body"⟩

/-- `Zuul::builds`, given the transport outcome of the GET request: a
transport failure fails the call; a top-level non-array body fails the
call at the transport layer; otherwise every array element is decoded
independently with `Build::deserialize` and the call succeeds with the
per-element results. -/
def builds (resp : Except TransportError Json) :
    Except TransportError (List (Except DecodeError Build)) :=
  match resp with
  | .error e => .error e
  | .ok (.arr elems) => .ok (elems.map decodeBuild)
  | .ok _ => .error jsonBodyError

/-- One retry attempt cascade of `tokio_retry::Retry::spawn`: run the
action; on success stop; on failure, take the next delay from the backoff
strategy iterator and try again, or surface the last error once the
iterator is exhausted.  `remaining` is the number of delays the strategy
can still yield; the attempt index is passed to the action so a backend
can be modelled as answering differently per attempt. -/
def retryGo {α : Type} (action : Nat → Except TransportError α) :
    Nat → Nat → Except TransportError α
  | attempt, remaining =>
    match action attempt with
    | .ok a => .ok a
    | .error e =>
      match remaining with
      | 0 => .error e
      | r + 1 => retryGo action (attempt + 1) r

/-- The number of delays the scanner's strategy yields:
`ExponentialBackoff::from_millis(10).max_delay(13s).map(jitter).take(10)`.
The delay durations themselves (backoff and jitter) do not affect which
value is returned, only the attempt count does. -/
def retryBudget : Nat := 10

/-- `Retry::spawn(retry_strategy, action)` as used by `builds_stream`:
first attempt plus up to `retryBudget` retries. -/
def retrySpawn {α : Type} (action : Nat → Except TransportError α) :
    Except TransportError α :=
  retryGo action 0 retryBudget

/-- The mutable state captured by one `builds_stream` instance: the page
offset and the set of already-yielded uuids (`known_builds`, a `HashSet`
modelled as the list of inserted uuids). -/
structure ScanState where
  offset : Nat
  known : List String
deriving DecidableEq, Repr

/-- The per-element loop body of `builds_stream` over one fetched page:
a decode error is logged and dropped, a build whose uuid is already in
`known_builds` is skipped, and a new build is recorded and yielded. -/
def processElems (s : ScanState) :
    List (Except DecodeError Build) → ScanState × List Build
  | [] => (s, [])
  | .error _ :: rest => processElems s rest
  | .ok b :: rest =>
    if b.uuid ∈ s.known then
      processElems s rest
    else
      ((processElems (ScanState.mk s.offset (b.uuid :: s.known)) rest).1,
       b :: (processElems (ScanState.mk s.offset (b.uuid :: s.known)) rest).2)

/-- One iteration of the `builds_stream` loop on a fetched page: advance
`offset` by the number of raw elements returned (`builds.len()`), then
run the per-element loop. -/
def processPage (s : ScanState)
    (page : List (Except DecodeError Build)) : ScanState × List Build :=
  processElems (ScanState.mk (s.offset + page.length) s.known) page

/-- Run the `builds_stream` loop over the finite list of page responses
the backend successfully returns, threading the scanner state and
concatenating the yielded builds in order. -/
def scanPages (s : ScanState) :
    List (List (Except DecodeError Build)) → ScanState × List Build
  | [] => (s, [])
  | p :: ps =>
    ((scanPages (processPage s p).1 ps).1,
     (processPage s p).2 ++ (scanPages (processPage s p).1 ps).2)

/-- A fresh `builds_stream` instance (`offset = 0`, empty
`known_builds`) run over a list of page responses. -/
def builds_stream_run (pages : List (List (Except DecodeError Build))) :
    ScanState × List Build :=
  scanPages (ScanState.mk 0 []) pages

/-- The catching-up loop body of `builds_tail` over the enumerated
scanner output: at index 0 the checkpoint candidate is set to the build's
uuid (before any comparison), then a build whose uuid equals the old
checkpoint stops the iteration, and any other build is yielded. -/
def tailConsume (since : String) :
    List Build → Nat → String → List Build × String
  | [], _, cur => ([], cur)
  | b :: rest, idx, cur =>
    if b.uuid = since then
      ([], if idx = 0 then b.uuid else cur)
    else
      (b :: (tailConsume since rest (idx + 1) (if idx = 0 then b.uuid else cur)).1,
       (tailConsume since rest (idx + 1) (if idx = 0 then b.uuid else cur)).2)

/-- One catching-up iteration of `builds_tail` (state `since = Some _`),
given the builds the scanner yields this iteration: the forwarded builds
in order, and the checkpoint for the next iteration. -/
def builds_tail_catchup (since : String) (emitted : List Build) :
    List Build × String :=
  tailConsume since emitted 0 since

/-- How one `builds_tail` iteration can end fatally: the `.unwrap()` on a
transport failure, or the explicit `Could not get the latest build`
failure of the bootstrap branch. -/
inductive TailFatal where
  | transport (e : TransportError)
  | noLatestBuild
deriving DecidableEq, Repr

/-- The bootstrap branch body on the outcome of its single fetch:
a transport failure hits `.unwrap()` and is immediately fatal; otherwise
`builds.pop()` takes the last element, and only a successfully decoded
build becomes the checkpoint — an empty page (or a decode failure in the
popped slot) leaves `since` unset, which is fatal.  Nothing is yielded in
this branch. -/
def bootProcess (r : Except TransportError (List (Except DecodeError Build))) :
    Except TailFatal (List Build × String) :=
  match r with
  | .error e => .error (.transport e)
  | .ok page =>
    match page.getLast? with
    | some (.ok b) => .ok ([], b.uuid)
    | _ => .error .noLatestBuild

/-- One bootstrapping iteration of `builds_tail` (state `since = None`),
given the backend environment as a function of (attempt index, skip,
limit): the code issues a single direct call `self.builds(0, 1)` — attempt
0, skip 0, limit 1 — with no retry wrapper around it. -/
def builds_tail_bootstrap
    (env : Nat → Nat → Nat → Except TransportError (List (Except DecodeError Build))) :
    Except TailFatal (List Build × String) :=
  bootProcess (env 0 0 1)

/-- `url::ParseError`. -/
structure UrlParseError where
  msg : String
deriving DecidableEq, Repr

/-- The parts of a parsed `url::Url` that `parse_root_url` looks at. -/
structure Url where
  scheme : String
  host : Option String
  path : String
deriving DecidableEq, Repr

/-- `Url::set_path` for the safe path strings this code produces. -/
def Url.setPath (u : Url) (p : String) : Url :=
  Url.mk u.scheme u.host p

/-- `Url::to_string` for URLs with an authority (the http/https shapes
exercised by the repository's tests). -/
def Url.toStr (u : Url) : String :=
  u.scheme ++ "://" ++ u.host.getD "" ++ u.path

/-- The possible outcomes of `parse_root_url`: a normalized url, a url
parse error, or the `.unwrap()` panic on `chars().last()` of an empty
path. -/
inductive UrlOutcome where
  | ok (u : Url)
  | err (e : UrlParseError)
  | panicked
deriving DecidableEq, Repr

/-- `parse_root_url`, given the result of `Url::parse` on the input (the
WHATWG parser is the external url crate; its output is this function's
input): a parse failure propagates; otherwise the last character of the
path is unwrapped — which panics when the parsed path is empty, as for
valid non-special urls such as `foo:` — and if it is not `/`, the path
gets a trailing slash appended. -/
def parse_root_url (parsed : Except UrlParseError Url) : UrlOutcome :=
  match parsed with
  | .error e => .err e
  | .ok u =>
    match u.path.toList.getLast? with
    | none => .panicked
    | some c => if c ≠ '/' then .ok (u.setPath (u.path ++ "/")) else .ok u

/-- A concrete build used to instantiate the stream and tail theorems. -/
def testBuild (uuid : String) : Build :=
  ⟨uuid, "job", "SUCCESS", ⟨2021, 10, 13, 12, 0, 0⟩, ⟨2021, 10, 13, 12, 42, 0⟩,
   42, true, none, [], "project", "main", "check", some 42, none, "head", "e"⟩

deriving instance DecidableEq for Except

/-- A raw 20-row page: 19 decodable rows and one undecodable row. -/
def page20 : List (Except DecodeError Build) :=
  List.replicate 19 (Except.ok (testBuild "b")) ++ [Except.error ⟨"bad"⟩]

/-- A backend whose latest-build query returns build `L`. -/
def envBootL : Nat → Nat → Nat → Except TransportError (List (Except DecodeError Build)) :=
  fun _ _ _ => .ok [.ok (testBuild "L")]

/-- A backend whose listing is empty. -/
def envBootEmpty : Nat → Nat → Nat → Except TransportError (List (Except DecodeError Build)) :=
  fun _ _ _ => .ok []

/-- A backend that fails transport-level on its first call and succeeds
from the second call on. -/
def envC5 : Nat → Nat → Nat → Except TransportError (List (Except DecodeError Build))
  | 0, _, _ => .error ⟨"connection reset"⟩
  | _ + 1, _, _ => .ok [.ok (testBuild "L")]

/-- A well-formed build element in its JSON wire form. -/
def jGood : Json :=
  Json.obj [("uuid", Json.str "u1"), ("job_name", Json.str "hlint"),
    ("result", Json.str "SUCCESS"), ("start_time", Json.str "2021-10-13T12:57:20"),
    ("end_time", Json.str "2021-10-13T12:58:42"),
    ("duration", Json.num (JNum.float (F32.finite 82))),
    ("voting", Json.bool true), ("log_url", Json.null),
    ("artifacts", Json.arr []), ("project", Json.str "proj"),
    ("branch", Json.str "master"), ("pipeline", Json.str "gate"),
    ("change", Json.num (JNum.uint 22894)), ("patchset", Json.str "1"),
    ("ref", Json.str "refs/changes/94/22894/1"), ("event_id", Json.str "ev")]

/-- The build `jGood` decodes to. -/
def bGood : Build :=
  ⟨"u1", "hlint", "SUCCESS", ⟨2021, 10, 13, 12, 57, 20⟩, ⟨2021, 10, 13, 12, 58, 42⟩,
   82, true, none, [], "proj", "master", "gate", some 22894, some "1",
   "refs/changes/94/22894/1", "ev"⟩

/-- Appending one element to a page keeps `processElems` offset-silent:
the element loop never touches the offset. -/
theorem processElems_offset (page : List (Except DecodeError Build)) :
    ∀ s : ScanState, (processElems s page).1.offset = s.offset := by
  induction page with
  | nil => intro s; rfl
  | cons hd tl ih =>
    intro s
    cases hd with
    | error e => simpa [processElems] using ih s
    | ok b =>
      by_cases hm : b.uuid ∈ s.known
      · simpa [processElems, hm] using ih s
      · simpa [processElems, hm] using ih (ScanState.mk s.offset (b.uuid :: s.known))

/-- The element loop yields at most as many builds as the page has raw
elements. -/
theorem processElems_length (page : List (Except DecodeError Build)) :
    ∀ s : ScanState, (processElems s page).2.length ≤ page.length := by
  induction page with
  | nil => intro s; simp [processElems]
  | cons hd tl ih =>
    intro s
    cases hd with
    | error e =>
      have h := ih s
      simp only [processElems]
      exact Nat.le_succ_of_le h
    | ok b =>
      by_cases hm : b.uuid ∈ s.known
      · have h := ih s
        simp only [processElems, if_pos hm]
        exact Nat.le_succ_of_le h
      · have h := ih (ScanState.mk s.offset (b.uuid :: s.known))
        simp only [processElems, if_neg hm, List.length_cons]
        exact Nat.succ_le_succ h

/-- A page containing a decode failure yields strictly fewer builds than
its raw element count. -/
theorem processElems_length_lt (page : List (Except DecodeError Build)) :
    ∀ s : ScanState, (∃ e : DecodeError, Except.error e ∈ page) →
      (processElems s page).2.length < page.length := by
  induction page with
  | nil =>
    intro s h
    rcases h with ⟨e, he⟩
    simp at he
  | cons hd tl ih =>
    intro s h
    cases hd with
    | error e =>
      have hle := processElems_length tl s
      simp only [processElems, List.length_cons]
      exact Nat.lt_succ_of_le hle
    | ok b =>
      have htl : ∃ e : DecodeError, Except.error e ∈ tl := by
        rcases h with ⟨e, he⟩
        rcases List.mem_cons.mp he with h1 | h1
        · exact absurd h1 (by simp)
        · exact ⟨e, h1⟩
      by_cases hm : b.uuid ∈ s.known
      · have hlt := ih s htl
        simp only [processElems, if_pos hm, List.length_cons]
        exact Nat.lt_succ_of_lt hlt
      · have hlt := ih (ScanState.mk s.offset (b.uuid :: s.known)) htl
        simp only [processElems, if_neg hm, List.length_cons]
        exact Nat.succ_lt_succ hlt

/-- C3: after a page fetch, `builds_stream` advances its offset by the
number of raw elements the page returned, not by the number that decoded
successfully: on a 20-row page containing an undecodable row the next
fetch's skip is the old offset plus 20, while strictly fewer than 20
builds were decoded and yielded. -/
theorem c3_offset_by_raw_count (s : ScanState) (page : List (Except DecodeError Build))
    (h20 : page.length = 20) (herr : ∃ e : DecodeError, Except.error e ∈ page) :
    (processPage s page).1.offset = s.offset + 20
    ∧ (processPage s page).2.length < 20 := by
  constructor
  · simp only [processPage]
    rw [h20]
    exact processElems_offset page (ScanState.mk (s.offset + 20) s.known)
  · simp only [processPage]
    rw [h20]
    have h := processElems_length_lt page (ScanState.mk (s.offset + 20) s.known) herr
    rw [h20] at h
    exact h

/-- Witness for C3 at a concrete page of 20 raw rows with one
undecodable row: skip goes up by 20, not 19. -/
theorem c3_offset_by_raw_count_witness :
    (processPage (ScanState.mk 0 []) page20).1.offset = 0 + 20
    ∧ (processPage (ScanState.mk 0 []) page20).2.length < 20 :=
  c3_offset_by_raw_count (ScanState.mk 0 []) page20 (by decide) ⟨⟨"bad"⟩, by decide⟩

/-- C2: in the catching-up state with checkpoint `since`, a scanner
iteration yielding builds `[A, B, X, C]` where `X` carries the checkpoint
uuid and `A`, `B` do not, forwards exactly `[A, B]` in order and leaves the
checkpoint at `A`'s uuid (remembered at index 0, before the comparison
with `since`). -/
theorem c2_checkpoint (bA bB bX bC : Build) (s : String)
    (hX : bX.uuid = s) (hA : bA.uuid ≠ s) (hB : bB.uuid ≠ s) :
    builds_tail_catchup s [bA, bB, bX, bC] = ([bA, bB], bA.uuid) := by
  simp [builds_tail_catchup, tailConsume, hX, hA, hB]

/-- Witness for C2 at concrete builds with uuids A, B, X, C and
checkpoint X. -/
theorem c2_checkpoint_witness :
    builds_tail_catchup "X" [testBuild "A", testBuild "B", testBuild "X", testBuild "C"]
      = ([testBuild "A", testBuild "B"], "A") := by
  have h := c2_checkpoint (testBuild "A") (testBuild "B") (testBuild "X") (testBuild "C") "X"
    (by decide) (by decide) (by decide)
  simpa [testBuild] using h

/-- C4: in the bootstrapping state (`since = None`), `builds_tail` makes
a single fetch with skip 0 and limit 1; when the backend returns one
decodable build it forwards nothing and sets the checkpoint to that
build's uuid, and when the listing is empty the tail operation fails
fatally. -/
theorem c4_bootstrap
    (env : Nat → Nat → Nat → Except TransportError (List (Except DecodeError Build)))
    (b : Build) :
    (env 0 0 1 = .ok [.ok b] → builds_tail_bootstrap env = .ok ([], b.uuid))
    ∧ (env 0 0 1 = .ok [] → builds_tail_bootstrap env = .error TailFatal.noLatestBuild) := by
  constructor
  · intro h
    simp [builds_tail_bootstrap, bootProcess, h]
  · intro h
    simp [builds_tail_bootstrap, bootProcess, h]

/-- Witness for C4 at the two concrete backends. -/
theorem c4_bootstrap_witness :
    builds_tail_bootstrap envBootL = .ok ([], "L")
    ∧ builds_tail_bootstrap envBootEmpty = .error TailFatal.noLatestBuild := by
  constructor
  · have h := (c4_bootstrap envBootL (testBuild "L")).1 rfl
    simpa [testBuild] using h
  · exact (c4_bootstrap envBootEmpty (testBuild "L")).2 rfl

/-- C5 counterexample: the bootstrap fetch is NOT issued through the
retry wrapper.  Against a backend that fails only its very first call,
the retry-wrapped fetch (as the scanner issues it) succeeds, but the
bootstrap branch fails fatally at once: the claimed "retried with backoff
up to the attempt budget, the same as fetches issued by the scanner" is
false on the code. -/
theorem c5_counterexample :
    builds_tail_bootstrap envC5 = .error (TailFatal.transport ⟨"connection reset"⟩)
    ∧ retrySpawn (fun n => envC5 n 0 1) = .ok [.ok (testBuild "L")] :=
  ⟨rfl, rfl⟩

/-- C5 (amended): the bootstrapping fetch (skip=0, limit=1) is issued
directly through the paged fetcher without the retry wrapper: a transport
failure on its single attempt is immediately fatal, whereas the same
backend enters the ok branch under the retry wrapper the scanner uses,
which retries later attempts. -/
theorem c5_bootstrap_not_retried
    (env : Nat → Nat → Nat → Except TransportError (List (Except DecodeError Build)))
    (e : TransportError) (p : List (Except DecodeError Build))
    (h0 : env 0 0 1 = .error e) (h1 : env 1 0 1 = .ok p) :
    builds_tail_bootstrap env = .error (TailFatal.transport e)
    ∧ retrySpawn (fun n => env n 0 1) = .ok p := by
  constructor
  · simp [builds_tail_bootstrap, bootProcess, h0]
  · simp [retrySpawn, retryGo, retryBudget, h0, h1]

/-- Witness for amended C5 at the concrete once-failing backend. -/
theorem c5_bootstrap_not_retried_witness :
    builds_tail_bootstrap envC5 = .error (TailFatal.transport ⟨"connection reset"⟩)
    ∧ retrySpawn (fun n => envC5 n 0 1) = .ok [.ok (testBuild "L")] :=
  c5_bootstrap_not_retried envC5 ⟨"connection reset"⟩ [.ok (testBuild "L")] rfl rfl

/-- C7: a fetch action that fails transport-level on every attempt makes
the retry-wrapped call terminate after the fixed budget — the initial
attempt plus the strategy's 10 retries — and the error surfaced to the
caller is the one from the last attempt, not swallowed. -/
theorem c7_retry_exhaustion (err : Nat → TransportError) :
    retrySpawn (fun n => (Except.error (err n) : Except TransportError (List (Except DecodeError Build))))
      = .error (err retryBudget)
    ∧ retryBudget = 10 :=
  ⟨rfl, rfl⟩

/-- C9: the duration field decodes by reading a 32-bit float and
truncating toward zero: `82.0` decodes to `82`, the integral numeral `82`
decodes to `82`, `82.9` truncates to `82` (not rounds to 83), and
re-encoding a decoded duration always emits a plain unsigned integral
numeral, never a fractional form. -/
theorem c9_duration_truncation :
    rounded_float_deserialize (Json.num (JNum.float (F32.finite 82))) = .ok 82
    ∧ rounded_float_deserialize (Json.num (JNum.uint 82)) = .ok 82
    ∧ rounded_float_deserialize (Json.num (JNum.float (F32.finite (829 / 10)))) = .ok 82
    ∧ ∀ n : Nat, rounded_float_serialize n = Json.num (JNum.uint n) := by
  refine ⟨by decide, by decide, ?_, fun n => rfl⟩
  have hq : ((829 : ℚ) / 10) = ((829 : ℤ) : ℚ) / ((10 : ℕ) : ℚ) := by norm_num
  have hfloor : Rat.floor ((829 : ℚ) / 10) = 82 := by
    rw [(Rat.floor_def' _).trans Rat.floor_def.symm, hq, Rat.floor_intCast_div_natCast]
    decide
  simp only [rounded_float_deserialize, jnumToF32, f32CastU32]
  rw [if_neg (by norm_num), hfloor]
  decide

/-- C10: duration decoding is total over all JSON numerals — it never
returns a decode error for a numeric value — and the f32-to-u32 cast
saturates: NaN and any negative value decode to 0, and any value above
`u32::MAX` decodes to `u32::MAX`. -/
theorem c10_cast_saturates (j : JNum) :
    (∃ n : Nat, rounded_float_deserialize (Json.num j) = .ok n)
    ∧ (jnumToF32 j = F32.nan → rounded_float_deserialize (Json.num j) = .ok 0)
    ∧ (∀ q : ℚ, jnumToF32 j = F32.finite q → q < 0 →
        rounded_float_deserialize (Json.num j) = .ok 0)
    ∧ (∀ q : ℚ, jnumToF32 j = F32.finite q → (U32_MAX : ℚ) < q →
        rounded_float_deserialize (Json.num j) = .ok U32_MAX) := by
  refine ⟨⟨f32CastU32 (jnumToF32 j), rfl⟩, ?_, ?_, ?_⟩
  · intro h
    simp [rounded_float_deserialize, h, f32CastU32]
  · intro q hq hlt
    have hle : q ≤ 0 := le_of_lt hlt
    simp [rounded_float_deserialize, hq, f32CastU32, hle]
  · intro q hq hlt
    have h0 : ¬ q ≤ 0 := by
      intro hc
      have hpos : (0 : ℚ) < (U32_MAX : ℚ) := by norm_num [U32_MAX]
      linarith
    have hfl : (U32_MAX : ℤ) ≤ Rat.floor q := by
      rw [Rat.le_floor]
      push_cast
      exact le_of_lt hlt
    have hnat : U32_MAX ≤ (Rat.floor q).toNat := by
      have h2 := Int.toNat_le_toNat hfl
      simpa using h2
    simp [rounded_float_deserialize, hq, f32CastU32, h0, Nat.min_eq_left hnat]

/-- Witness for C10 at a negative numeral, at NaN, and at a numeral above
`u32::MAX`. -/
theorem c10_cast_saturates_witness :
    rounded_float_deserialize (Json.num (JNum.nint (-5))) = .ok 0
    ∧ rounded_float_deserialize (Json.num (JNum.float F32.nan)) = .ok 0
    ∧ rounded_float_deserialize (Json.num (JNum.uint 5000000000)) = .ok U32_MAX :=
  ⟨(c10_cast_saturates (JNum.nint (-5))).2.2.1 ((-5 : Int) : ℚ) (by decide) (by decide),
   (c10_cast_saturates (JNum.float F32.nan)).2.1 rfl,
   (c10_cast_saturates (JNum.uint 5000000000)).2.2.2 ((5000000000 : Nat) : ℚ)
     (by decide) (by norm_num [U32_MAX])⟩

/-- The element loop's full invariant: the yielded uuids are distinct,
none of them was already known, and the final known set is exactly the
yielded uuids together with the initial known set. -/
theorem processElems_inv (page : List (Except DecodeError Build)) :
    ∀ s : ScanState,
      ((processElems s page).2.map Build.uuid).Nodup
      ∧ (∀ b ∈ (processElems s page).2, b.uuid ∉ s.known)
      ∧ (∀ u : String, u ∈ (processElems s page).1.known ↔
          u ∈ (processElems s page).2.map Build.uuid ∨ u ∈ s.known) := by
  induction page with
  | nil =>
    intro s
    refine ⟨by simp [processElems], by simp [processElems], ?_⟩
    intro u
    simp [processElems]
  | cons hd tl ih =>
    intro s
    cases hd with
    | error e =>
      have hrw : processElems s (Except.error e :: tl) = processElems s tl := by
        simp [processElems]
      rw [hrw]
      exact ih s
    | ok b =>
      by_cases hm : b.uuid ∈ s.known
      · have hrw : processElems s (Except.ok b :: tl) = processElems s tl := by
          simp [processElems, hm]
        rw [hrw]
        exact ih s
      · have hrw2 : (processElems s (Except.ok b :: tl)).2
            = b :: (processElems (ScanState.mk s.offset (b.uuid :: s.known)) tl).2 := by
          simp [processElems, hm]
        have hrw1 : (processElems s (Except.ok b :: tl)).1
            = (processElems (ScanState.mk s.offset (b.uuid :: s.known)) tl).1 := by
          simp [processElems, hm]
        obtain ⟨ih1, ih2, ih3⟩ := ih (ScanState.mk s.offset (b.uuid :: s.known))
        have ih2' : ∀ x ∈ (processElems (ScanState.mk s.offset (b.uuid :: s.known)) tl).2,
            x.uuid ∉ b.uuid :: s.known := ih2
        have ih3' : ∀ u : String,
            u ∈ (processElems (ScanState.mk s.offset (b.uuid :: s.known)) tl).1.known ↔
            u ∈ (processElems (ScanState.mk s.offset (b.uuid :: s.known)) tl).2.map Build.uuid
              ∨ u ∈ b.uuid :: s.known := ih3
        refine ⟨?_, ?_, ?_⟩
        · rw [hrw2]
          simp only [List.map_cons, List.nodup_cons]
          refine ⟨?_, ih1⟩
          intro hmem
          rw [List.mem_map] at hmem
          obtain ⟨x, hx, hxeq⟩ := hmem
          refine (ih2' x hx) ?_
          rw [hxeq]
          exact List.mem_cons_self _ _
        · intro x hx
          rw [hrw2] at hx
          rcases List.mem_cons.mp hx with h1 | h1
          · subst h1
            exact hm
          · intro hk
            exact (ih2' x h1) (List.mem_cons_of_mem _ hk)
        · intro u
          rw [hrw1, hrw2]
          have h3 := ih3' u
          simp only [List.map_cons, List.mem_cons] at h3 ⊢
          rw [h3]
          tauto

/-- The scanner loop's invariant over a whole run: yielded uuids are
distinct, avoid the initial known set, and the final known set is the
yielded uuids plus the initial known set. -/
theorem scanPages_inv (pages : List (List (Except DecodeError Build))) :
    ∀ s : ScanState,
      ((scanPages s pages).2.map Build.uuid).Nodup
      ∧ (∀ b ∈ (scanPages s pages).2, b.uuid ∉ s.known)
      ∧ (∀ u : String, u ∈ (scanPages s pages).1.known ↔
          u ∈ (scanPages s pages).2.map Build.uuid ∨ u ∈ s.known) := by
  induction pages with
  | nil =>
    intro s
    refine ⟨by simp [scanPages], by simp [scanPages], ?_⟩
    intro u
    simp [scanPages]
  | cons p ps ih =>
    intro s
    have hrw1 : (scanPages s (p :: ps)).1 = (scanPages (processPage s p).1 ps).1 := by
      simp [scanPages]
    have hrw2 : (scanPages s (p :: ps)).2
        = (processPage s p).2 ++ (scanPages (processPage s p).1 ps).2 := by
      simp [scanPages]
    obtain ⟨p1, p2, p3⟩ := processElems_inv p (ScanState.mk (s.offset + p.length) s.known)
    have q1 : ((processPage s p).2.map Build.uuid).Nodup := p1
    have q2 : ∀ x ∈ (processPage s p).2, x.uuid ∉ s.known := p2
    have q3 : ∀ u : String, u ∈ (processPage s p).1.known ↔
        u ∈ (processPage s p).2.map Build.uuid ∨ u ∈ s.known := p3
    obtain ⟨i1, i2, i3⟩ := ih (processPage s p).1
    refine ⟨?_, ?_, ?_⟩
    · rw [hrw2, List.map_append]
      refine List.Nodup.append q1 i1 ?_
      intro u hu1 hu2
      rw [List.mem_map] at hu2
      obtain ⟨x, hx, hxeq⟩ := hu2
      refine (i2 x hx) ?_
      rw [hxeq]
      exact (q3 u).mpr (Or.inl hu1)
    · intro x hx
      rw [hrw2] at hx
      rcases List.mem_append.mp hx with h1 | h1
      · exact q2 x h1
      · intro hk
        exact (i2 x h1) ((q3 x.uuid).mpr (Or.inr hk))
    · intro u
      rw [hrw1, hrw2, List.map_append, List.mem_append]
      rw [i3 u, q3 u]
      tauto

/-- C1: for every sequence of pages the backend returns — including pages
that re-include records already returned earlier — a single
`builds_stream` instance emits each distinct build uuid at most once.
(The claim's proviso that an observed build's uuid does not change is
automatic here: builds are identified by their uuid value, which the
dedup set keys on, so no hypothesis is needed.) -/
theorem c1_no_duplicates (pages : List (List (Except DecodeError Build))) :
    ((builds_stream_run pages).2.map Build.uuid).Nodup :=
  (scanPages_inv pages (ScanState.mk 0 [])).1

/-- C6: on a well-formed JSON array response the paged fetch decodes each
element independently — a malformed element yields a per-slot
`DecodeError` while every sibling element still decodes with
`Build::deserialize`, and the call as a whole succeeds — while only a
transport failure or a non-array top-level value fails the whole call
with a `TransportError`. -/
theorem c6_element_decoding (pre post : List Json) (bad : Json) (e : DecodeError)
    (hbad : decodeBuild bad = .error e) :
    builds (.ok (Json.arr (pre ++ bad :: post)))
      = .ok (pre.map decodeBuild ++ Except.error e :: post.map decodeBuild)
    ∧ (∀ te : TransportError, builds (.error te) = .error te)
    ∧ (∀ j : Json, j.isArr = false → builds (.ok j) = .error jsonBodyError) := by
  refine ⟨?_, fun te => rfl, ?_⟩
  · simp [builds, hbad]
  · intro j hj
    cases j with
    | arr xs => simp [Json.isArr] at hj
    | null => rfl
    | bool b => rfl
    | num n => rfl
    | str s => rfl
    | obj ms => rfl

/-- Witness for C6: a concrete page with a good element, a malformed
element and another good element; the malformed slot errors while the
siblings decode to the concrete build. -/
theorem c6_element_decoding_witness :
    builds (.ok (Json.arr ([jGood] ++ Json.str "oops" :: [jGood])))
      = .ok (List.map decodeBuild [jGood]
          ++ Except.error buildTypeError :: List.map decodeBuild [jGood])
    ∧ decodeBuild jGood = .ok bGood := by
  refine ⟨(c6_element_decoding [jGood] [jGood] (Json.str "oops") buildTypeError rfl).1, ?_⟩
  decide

/-- A string whose character list is empty is the empty string. -/
theorem string_toList_eq_nil (s : String) (h : s.toList = []) : s = "" := by
  cases s with
  | mk data =>
    simp [String.toList] at h
    subst h
    rfl

/-- C8 counterexample: client construction is not total — the claim that
it never panics, including on syntactically valid urls whose parsed path
is empty, is false.  `Url::parse` accepts non-special urls such as
`foo:` whose path is the empty string, and `parse_root_url` then hits the
`.unwrap()` on `chars().last()` of that empty path. -/
theorem c8_counterexample :
    parse_root_url (.ok (Url.mk "foo" none "")) = UrlOutcome.panicked := by
  decide

/-- C8 (amended): for every parse outcome, `parse_root_url` either
propagates the parse error, or — when the parsed path is nonempty —
returns a url with the same scheme and host whose path ends in `/`
(in particular the documented example roots normalize with a trailing
separator); but when the parsed path is empty it panics on the unwrap
rather than returning. -/
theorem c8_url_normalization (parsed : Except UrlParseError Url) :
    (∀ e : UrlParseError, parsed = .error e → parse_root_url parsed = .err e)
    ∧ (∀ u : Url, parsed = .ok u → u.path ≠ "" →
        ∃ u2 : Url, parse_root_url parsed = .ok u2
          ∧ u2.path.toList.getLast? = some '/'
          ∧ u2.scheme = u.scheme ∧ u2.host = u.host)
    ∧ (∀ u : Url, parsed = .ok u → u.path = "" → parse_root_url parsed = .panicked)
    ∧ parse_root_url (.ok (Url.mk "https" (some "example.com") "/"))
        = .ok (Url.mk "https" (some "example.com") "/")
    ∧ parse_root_url (.ok (Url.mk "https" (some "example.com") "/api"))
        = .ok (Url.mk "https" (some "example.com") "/api/")
    ∧ (Url.mk "https" (some "example.com") "/").toStr = "https://example.com/"
    ∧ (Url.mk "https" (some "example.com") "/api/").toStr = "https://example.com/api/" := by
  refine ⟨?_, ?_, ?_, by decide, by decide, by decide, by decide⟩
  · intro e he
    rw [he]
    rfl
  · intro u hu hne
    rw [hu]
    have hd : u.path.toList ≠ [] := fun hh => hne (string_toList_eq_nil _ hh)
    obtain ⟨c, hc⟩ := Option.isSome_iff_exists.mp (List.getLast?_isSome.mpr hd)
    have hc2 : u.path.data.getLast? = some c := hc
    by_cases hsl : c = '/'
    · refine ⟨u, ?_, ?_, rfl, rfl⟩
      · simp [parse_root_url, hc2, hsl]
      · rw [hc, hsl]
    · refine ⟨u.setPath (u.path ++ "/"), ?_, ?_, rfl, rfl⟩
      · simp [parse_root_url, hc2, hsl]
      · have hap : (u.path ++ "/").toList = u.path.toList ++ ['/'] :=
          String.data_append u.path "/"
        show (u.path ++ "/").toList.getLast? = some '/'
        rw [hap, List.getLast?_concat]
  · intro u hu hemp
    rw [hu]
    have hd : u.path.data = [] := by
      rw [hemp]
    simp [parse_root_url, hd]

/-- Witness for amended C8 at the concrete root `https://example.com/api`
(parsed path `/api`): normalization succeeds with a trailing slash. -/
theorem c8_url_normalization_witness :
    ∃ u2 : Url, parse_root_url (.ok (Url.mk "https" (some "example.com") "/api")) = .ok u2
      ∧ u2.path.toList.getLast? = some '/'
      ∧ u2.scheme = "https" ∧ u2.host = some "example.com" := by
  have h := (c8_url_normalization (.ok (Url.mk "https" (some "example.com") "/api"))).2.1
    (Url.mk "https" (some "example.com") "/api") rfl (by decide)
  simpa using h
